import Mathlib

/-!
Shallow embedding of the `arm-generic-timer` driver (`src/lib.rs`).

Machine integers are modelled as `Nat` with explicit `% 2^w` where wrapping
matters.  The release-mode overflow semantics of Rust are used throughout: integer
overflow wraps modulo the type width, and a shift amount is taken modulo the
bit width of the shifted type.  The Rust operation `!x` on `u32` is modelled as
`0xffffffff ^^^ x`.  A Rust function that can panic (a failed `assert!` or
`Option::unwrap`) is modelled as returning `Option`, with `none` for the
panic.
-/

namespace ArmGenericTimer

/-- `TimerControl::ISTATUS`: timer condition is met (bit 2). -/
def TimerControl.ISTATUS : Nat := 1 <<< 2

/-- `TimerControl::IMASK`: timer interrupt is masked (bit 1). -/
def TimerControl.IMASK : Nat := 1 <<< 1

/-- `TimerControl::ENABLE`: timer enabled (bit 0). -/
def TimerControl.ENABLE : Nat := 1 <<< 0

/-- bitflags `contains`: `self.bits() & other.bits() == other.bits()`. -/
def TimerControl.containsIstatus (c : Nat) : Bool :=
  (c &&& TimerControl.ISTATUS) == TimerControl.ISTATUS

/-- `CntCr::SCEN`: scaling is enabled (bit 2). -/
def CntCr.SCEN : Nat := 1 <<< 2

/-- `CntCr::FCREQ_MASK`. -/
def CntCr.FCREQ_MASK : Nat := 0x3ff

/-- `CntCr::FCREQ_SHIFT`. -/
def CntCr.FCREQ_SHIFT : Nat := 8

/-- `CntCr::set_fcreq`: `value = (self.0 & !(MASK << SHIFT)) | (((index as u32) & MASK) << SHIFT)`.
The `usize → u32` cast is `% 2^32`; `!m` on `u32` is `0xffffffff ^^^ m`. -/
def CntCr.set_fcreq (v index : Nat) : Nat :=
  (v &&& (0xffffffff ^^^ (CntCr.FCREQ_MASK <<< CntCr.FCREQ_SHIFT))) |||
    (((index % 2 ^ 32) &&& CntCr.FCREQ_MASK) <<< CntCr.FCREQ_SHIFT)

/-- `CntSr::FCACK_MASK`. -/
def CntSr.FCACK_MASK : Nat := 0x3ff

/-- `CntSr::FCACK_SHIFT`. -/
def CntSr.FCACK_SHIFT : Nat := 8

/-- `CntSr::fcack`: `(self.0 >> FCACK_SHIFT) & FCACK_MASK`. -/
def CntSr.fcack (v : Nat) : Nat :=
  (v >>> CntSr.FCACK_SHIFT) &&& CntSr.FCACK_MASK

/-- `CntId::CNTSC_MASK`. -/
def CntId.CNTSC_MASK : Nat := 0b1111

/-- `CntId::CNTSC_IMPLEMENTED`. -/
def CntId.CNTSC_IMPLEMENTED : Nat := 0b0001

/-- `CntId::scaling_implemented`: `self.0 & CNTSC_MASK == CNTSC_IMPLEMENTED`. -/
def CntId.scaling_implemented (v : Nat) : Bool :=
  (v &&& CntId.CNTSC_MASK) == CntId.CNTSC_IMPLEMENTED

/-- `Features::from_bits_truncate`: keeps only the known bits
`IMPLEMENTED | VIRTUAL | CNTEL0BASE = 0b111`. -/
def Features.from_bits_truncate (v : Nat) : Nat := v &&& 0b111

/-! ## `repr(C)` layout of the register blocks

A field is a (size, alignment) pair; `repr(C)` places fields in order, each at
the next multiple of its alignment, and rounds the total size up to the struct
alignment (the maximum field alignment, at least the declared `align(4)`). -/

/-- One struct field: byte size and alignment. -/
structure LayoutField where
  size : Nat
  alignment : Nat

/-- `u32` and the `repr(transparent)` register wrappers around it. -/
def fU32 : LayoutField := ⟨4, 4⟩

/-- `u64` (also wrapped). -/
def fU64 : LayoutField := ⟨8, 8⟩

/-- `[u32; n]`. -/
def fU32Array (n : Nat) : LayoutField := ⟨4 * n, 4⟩

/-- `[u64; n]`. -/
def fU64Array (n : Nat) : LayoutField := ⟨8 * n, 8⟩

/-- Round `offset` up to a multiple of alignment `a`. -/
def alignUp (offset a : Nat) : Nat := (offset + a - 1) / a * a

/-- End offset after laying out the fields in order starting at `off`. -/
def layoutEnd : Nat → List LayoutField → Nat
  | off, [] => off
  | off, f :: rest => layoutEnd (alignUp off f.alignment + f.size) rest

/-- Struct alignment: max of field alignments and the declared minimum. -/
def structAlign (minAlign : Nat) (fields : List LayoutField) : Nat :=
  fields.foldl (fun a f => max a f.alignment) minAlign

/-- Total `repr(C, align(minAlign))` size. -/
def structSize (minAlign : Nat) (fields : List LayoutField) : Nat :=
  alignUp (layoutEnd 0 fields) (structAlign minAlign fields)

/-- Byte offset of the `i`-th field. -/
def fieldOffset (fields : List LayoutField) (i : Nat) : Nat :=
  match fields.drop i with
  | f :: _ => alignUp (layoutEnd 0 (fields.take i)) f.alignment
  | [] => layoutEnd 0 fields

/-- `CntControlBase` fields: cntcr, cntsr, cntcv, cntscr, reserved_14,
cntid, cntfid, impdef_0c0, reserved_100, counter_id. -/
def CntControlBase.fields : List LayoutField :=
  [fU32, fU32, fU64, fU32, fU32Array 2, fU32, fU32Array 40, fU32Array 16,
   fU32Array 948, fU32Array 12]

/-- `CntReadBase` fields: cntcv, reserved_8, counter_id. -/
def CntReadBase.fields : List LayoutField :=
  [fU64, fU32Array 1010, fU32Array 12]

/-- `CntCtlBase` fields: cntfrq, cntnsar, cnttidr, reserved_00c, cntacr,
reserved_060, cntvoff, reserved_0c0, impdef_100, reserved_800, impdef_fc0,
counter_id. -/
def CntCtlBase.fields : List LayoutField :=
  [fU32, fU32, fU32, fU32Array 13, fU32Array 8, fU32Array 8, fU64Array 8,
   fU32Array 16, fU32Array 448, fU32Array 496, fU32Array 4, fU32Array 12]

/-- `TimerRegs` fields: cval, tval, ctl. -/
def TimerRegs.fields : List LayoutField := [fU64, fU32, fU32]

/-- `TimerRegs` as a field of an enclosing block. -/
def fTimerRegs : LayoutField :=
  ⟨structSize 4 TimerRegs.fields, structAlign 4 TimerRegs.fields⟩

/-- `CntBase` fields: cntpct, cntvct, cntfrq, cntel0acr, cntvoff, cntp, cntv,
reserved, counter_id. -/
def CntBase.fields : List LayoutField :=
  [fU64, fU64, fU32, fU32, fU64, fTimerRegs, fTimerRegs, fU32Array 996,
   fU32Array 12]

/-- `CntEl0Base` fields: cntpct, cntvct, cntfrq, reserved_014, cntp, cntv,
reserved, counter_id. -/
def CntEl0Base.fields : List LayoutField :=
  [fU64, fU64, fU32, fU32Array 3, fTimerRegs, fTimerRegs, fU32Array 996,
   fU32Array 12]

/-! ## Driver state and operations

Each MMIO block is a record of its registers (reserved/impdef regions and the
read-only id footer are inert and carry no semantic operations, so they are
not part of the state).  An operation is a function from state (plus
arguments) to state or to a read value; a panicking operation returns
`Option`. -/

/-- Register state of the `CNTControlBase` block. -/
structure CntControlBaseState where
  cntcr : Nat
  cntsr : Nat
  cntcv : Nat
  cntscr : Nat
  cntid : Nat
  cntfid : Fin 40 → Nat

namespace GenericTimerControl

/-- `scale`: reads `cntscr`. -/
def scale (s : CntControlBaseState) : Nat := s.cntscr

/-- `enable_scaling`: writes `cntscr := scale`, then `cntcr := cntcr | SCEN`. -/
def enable_scaling (s : CntControlBaseState) (scale : Nat) : CntControlBaseState :=
  let s1 := { s with cntscr := scale }
  { s1 with cntcr := s1.cntcr ||| CntCr.SCEN }

/-- `disable_scaling`: writes `cntcr := cntcr - SCEN` (bitflags difference,
`bits & !other.bits`), then `cntscr := 0`. -/
def disable_scaling (s : CntControlBaseState) : CntControlBaseState :=
  let s1 := { s with cntcr := s.cntcr &&& (0xffffffff ^^^ CntCr.SCEN) }
  { s1 with cntscr := 0 }

/-- `base_frequency`: reads `cntfid[0]`. -/
def base_frequency (s : CntControlBaseState) : Nat := s.cntfid 0

/-- `frequency_mode`: `cntfid.get(index).unwrap()` (panic when out of range),
then `Some(frequency)` when the slot is nonzero, else `None`. -/
def frequency_mode (s : CntControlBaseState) (index : Nat) : Option (Option Nat) :=
  if h : index < 40 then
    let frequency := s.cntfid ⟨index, h⟩
    some (if frequency ≠ 0 then some frequency else none)
  else
    none

/-- `set_frequency_mode`: `cntfid.get(index).unwrap().write(frequency)`. -/
def set_frequency_mode (s : CntControlBaseState) (index frequency : Nat) :
    Option CntControlBaseState :=
  if h : index < 40 then
    some { s with cntfid := fun j => if j = ⟨index, h⟩ then frequency else s.cntfid j }
  else
    none

end GenericTimerControl

/-- Register state of the `CNTCTLBase` block. -/
structure CntCtlBaseState where
  cntfrq : Nat
  cntnsar : Nat
  cnttidr : Nat
  cntacr : Fin 8 → Nat
  cntvoff : Fin 8 → Nat

namespace GenericTimerCtl

/-- `non_secure_access`: `assert!(index < 8)`, then `cntnsar & (1 << index) != 0`. -/
def non_secure_access (s : CntCtlBaseState) (index : Nat) : Option Bool :=
  if index < 8 then
    some ((s.cntnsar &&& (1 <<< index)) != 0)
  else
    none

/-- `set_non_secure_access`: `assert!(index < 8)`, then set or clear bit
`index` of `cntnsar` (`!` on `u32` is `0xffffffff ^^^ ·`). -/
def set_non_secure_access (s : CntCtlBaseState) (index : Nat) (enable : Bool) :
    Option CntCtlBaseState :=
  if index < 8 then
    some { s with
      cntnsar :=
        if enable then s.cntnsar ||| (1 <<< index)
        else s.cntnsar &&& (0xffffffff ^^^ (1 <<< index)) }
  else
    none

/-- `features`: `assert!(index < 8)`, then
`Features::from_bits_truncate((cnttidr >> (index * 8)) as u8)`.  The shift
amount of the `u32` shift is taken `% 32` (release semantics) and the `u8`
cast is `% 2^8`. -/
def features (s : CntCtlBaseState) (index : Nat) : Option Nat :=
  if index < 8 then
    some (Features.from_bits_truncate ((s.cnttidr >>> (index * 8 % 32)) % 2 ^ 8))
  else
    none

/-- `access_control`: `cntacr.get(index).unwrap().read()`. -/
def access_control (s : CntCtlBaseState) (index : Nat) : Option Nat :=
  if h : index < 8 then some (s.cntacr ⟨index, h⟩) else none

/-- `set_access_control`: `cntacr.get(index).unwrap().write(cntacr)`. -/
def set_access_control (s : CntCtlBaseState) (index value : Nat) :
    Option CntCtlBaseState :=
  if h : index < 8 then
    some { s with cntacr := fun j => if j = ⟨index, h⟩ then value else s.cntacr j }
  else
    none

/-- `virtual_offset`: `cntvoff.get(index).unwrap().read()`. -/
def virtual_offset (s : CntCtlBaseState) (index : Nat) : Option Nat :=
  if h : index < 8 then some (s.cntvoff ⟨index, h⟩) else none

/-- `set_virtual_offset`: `cntvoff.get(index).unwrap().write(offset)`. -/
def set_virtual_offset (s : CntCtlBaseState) (index offset : Nat) :
    Option CntCtlBaseState :=
  if h : index < 8 then
    some { s with cntvoff := fun j => if j = ⟨index, h⟩ then offset else s.cntvoff j }
  else
    none

end GenericTimerCtl

/-! ## The comparator timer -/

/-- Register state of one `TimerRegs` sub-block. -/
structure TimerRegsState where
  cval : Nat
  tval : Nat
  ctl : Nat

/-- `core::time::Duration`: seconds and a nanosecond part below `10^9`. -/
structure Duration where
  secs : Nat
  nanos : Nat

/-- `Duration::as_micros`: `secs * 1_000_000 + nanos / 1_000` (exact in
`u128` for every valid `Duration`). -/
def Duration.as_micros (d : Duration) : Nat :=
  d.secs * 1000000 + d.nanos / 1000

namespace Timer

/-- `set_deadline`: `increment = frequency as u64 * duration.as_micros() as u64
/ 1_000_000`, then `cval := cval + increment`.  The `u128 → u64` cast is
`% 2^64`; the `u64` multiplication and addition wrap `% 2^64`. -/
def set_deadline (frequency : Nat) (d : Duration) (s : TimerRegsState) :
    TimerRegsState :=
  let increment := frequency * (d.as_micros % 2 ^ 64) % 2 ^ 64 / 1000000
  { s with cval := (s.cval + increment) % 2 ^ 64 }

/-- `control`: reads the `ctl` register. -/
def control (s : TimerRegsState) : Nat := s.ctl

/-- `set_control`: writes the `ctl` register. -/
def set_control (s : TimerRegsState) (c : Nat) : TimerRegsState :=
  { s with ctl := c }

/-- `generate_interrupt_after`: `set_deadline(duration)` then
`set_control(ENABLE)`. -/
def generate_interrupt_after (frequency : Nat) (d : Duration)
    (s : TimerRegsState) : TimerRegsState :=
  set_control (set_deadline frequency d s) TimerControl.ENABLE

/-- `cancel_interrupt`: `set_control(IMASK)`. -/
def cancel_interrupt (s : TimerRegsState) : TimerRegsState :=
  set_control s TimerControl.IMASK

/-- The spin loop of `wait`: the hardware may change `ctl` between the
successive reads of the loop, so the `n`-th read of the `ctl` register is
modelled by an oracle stream `reads n`.  `fuel` bounds the number of reads;
the loop returns the index of the first read whose `ISTATUS` bit is set. -/
def spinUntilIstatus (reads : Nat → Nat) : Nat → Nat → Option Nat
  | 0, _ => none
  | fuel + 1, n =>
    if TimerControl.containsIstatus (reads n) then some n
    else spinUntilIstatus reads fuel (n + 1)

/-- `wait`: `set_deadline(duration)`, `set_control(ENABLE | IMASK)`, then spin
until a read of `ctl` observes `ISTATUS`.  Returns the register state as
written by the driver and the index of the read that observed `ISTATUS`, or
`none` when no read within `fuel` observed it. -/
def wait (frequency : Nat) (d : Duration) (s : TimerRegsState)
    (reads : Nat → Nat) (fuel : Nat) : Option (TimerRegsState × Nat) :=
  let s1 := set_deadline frequency d s
  let s2 := set_control s1 (TimerControl.ENABLE ||| TimerControl.IMASK)
  match spinUntilIstatus reads fuel 0 with
  | some n => some (s2, n)
  | none => none

end Timer

/-! ## Shared bit-level helper lemmas -/

/-- A bit at or above the width of a bounded value is clear. -/
theorem testBit_high {x w k : Nat} (hx : x < 2 ^ w) (hk : w ≤ k) :
    Nat.testBit x k = false :=
  Nat.testBit_lt_two_pow
    (lt_of_lt_of_le hx (Nat.pow_le_pow_right (by norm_num) hk))

/-- Bits of the `u32` complement `0xffffffff ^^^ m`. -/
theorem testBit_u32_not (m k : Nat) :
    Nat.testBit (0xffffffff ^^^ m) k = (decide (k < 32) ^^ Nat.testBit m k) := by
  have h1 : (0xffffffff : Nat) = 2 ^ 32 - 1 := by norm_num
  rw [h1, Nat.testBit_xor, Nat.testBit_two_pow_sub_one]

/-- Bits of the `SCEN` flag (bit 2). -/
theorem testBit_scen (k : Nat) : Nat.testBit CntCr.SCEN k = decide (k = 2) := by
  have h : CntCr.SCEN = 2 ^ 2 := rfl
  rw [h, Nat.testBit_two_pow]
  simp [eq_comm]

/-- Bits of the positioned `FCREQ` mask `0x3ff <<< 8`. -/
theorem testBit_fcreq_mask (k : Nat) :
    Nat.testBit (CntCr.FCREQ_MASK <<< CntCr.FCREQ_SHIFT) k =
      decide (8 ≤ k ∧ k < 18) := by
  have h : CntCr.FCREQ_MASK = 2 ^ 10 - 1 := rfl
  have hs : CntCr.FCREQ_SHIFT = 8 := rfl
  rw [h, hs, Nat.testBit_shiftLeft, Nat.testBit_two_pow_sub_one]
  by_cases h8 : 8 ≤ k
  · by_cases h18 : k < 18
    · simp [h8, h18, show k - 8 < 10 by omega]
    · simp [h8, h18, show ¬(k - 8 < 10) by omega]
  · simp [h8, show ¬(8 ≤ k ∧ k < 18) by omega]

/-- Bit-level characterization of `set_fcreq`: bits 8..17 come from the
index, every other bit comes from the previous register value. -/
theorem testBit_set_fcreq (v i k : Nat) (hv : v < 2 ^ 32) :
    Nat.testBit (CntCr.set_fcreq v i) k =
      if 8 ≤ k ∧ k < 18 then Nat.testBit i (k - 8) else Nat.testBit v k := by
  unfold CntCr.set_fcreq
  rw [Nat.testBit_lor, Nat.testBit_land, testBit_u32_not, testBit_fcreq_mask,
    Nat.testBit_shiftLeft]
  have hm : ((i % 2 ^ 32) &&& CntCr.FCREQ_MASK : Nat) = i % 2 ^ 10 := by
    have h : CntCr.FCREQ_MASK = 2 ^ 10 - 1 := rfl
    rw [h, Nat.and_pow_two_sub_one_eq_mod, Nat.mod_mod_of_dvd]
    exact pow_dvd_pow 2 (by norm_num)
  have hs : CntCr.FCREQ_SHIFT = 8 := rfl
  rw [hm, hs, Nat.testBit_mod_two_pow]
  by_cases hin : 8 ≤ k ∧ k < 18
  · rw [if_pos hin]
    simp [hin, hin.1, show k - 8 < 10 by omega, show k < 32 by omega]
  · rw [if_neg hin]
    by_cases h32 : k < 32
    · by_cases h8 : 8 ≤ k
      · simp [hin, h32, h8, show ¬(k - 8 < 10) by omega, show 18 ≤ k by omega]
      · simp [hin, h32, h8]
    · have h6 : Nat.testBit v k = false := testBit_high hv (by omega)
      simp [hin, h32, h6, show ¬(k - 8 < 10) by omega]

/-! ## Claim theorems -/

/-- C3: every memory-mapped frame layout type (`CntControlBase`, `CntReadBase`,
`CntCtlBase`, `CntBase`, `CntEl0Base`) has `repr(C, align(4))` size exactly
4096 bytes, and every named field lands on its architectural byte offset. -/
theorem C3_layout_sizes :
    structSize 4 CntControlBase.fields = 4096 ∧
    structSize 4 CntReadBase.fields = 4096 ∧
    structSize 4 CntCtlBase.fields = 4096 ∧
    structSize 4 CntBase.fields = 4096 ∧
    structSize 4 CntEl0Base.fields = 4096 ∧
    fieldOffset CntControlBase.fields 0 = 0x000 ∧
    fieldOffset CntControlBase.fields 1 = 0x004 ∧
    fieldOffset CntControlBase.fields 2 = 0x008 ∧
    fieldOffset CntControlBase.fields 3 = 0x010 ∧
    fieldOffset CntControlBase.fields 5 = 0x01c ∧
    fieldOffset CntControlBase.fields 6 = 0x020 ∧
    fieldOffset CntControlBase.fields 7 = 0x0c0 ∧
    fieldOffset CntControlBase.fields 9 = 0xfd0 ∧
    fieldOffset CntReadBase.fields 0 = 0x000 ∧
    fieldOffset CntReadBase.fields 2 = 0xfd0 ∧
    fieldOffset CntCtlBase.fields 0 = 0x000 ∧
    fieldOffset CntCtlBase.fields 1 = 0x004 ∧
    fieldOffset CntCtlBase.fields 2 = 0x008 ∧
    fieldOffset CntCtlBase.fields 4 = 0x040 ∧
    fieldOffset CntCtlBase.fields 6 = 0x080 ∧
    fieldOffset CntCtlBase.fields 8 = 0x100 ∧
    fieldOffset CntCtlBase.fields 11 = 0xfd0 ∧
    structSize 4 TimerRegs.fields = 0x10 ∧
    fieldOffset TimerRegs.fields 0 = 0x000 ∧
    fieldOffset TimerRegs.fields 1 = 0x008 ∧
    fieldOffset TimerRegs.fields 2 = 0x00c ∧
    fieldOffset CntBase.fields 0 = 0x000 ∧
    fieldOffset CntBase.fields 1 = 0x008 ∧
    fieldOffset CntBase.fields 2 = 0x010 ∧
    fieldOffset CntBase.fields 3 = 0x014 ∧
    fieldOffset CntBase.fields 4 = 0x018 ∧
    fieldOffset CntBase.fields 5 = 0x020 ∧
    fieldOffset CntBase.fields 6 = 0x030 ∧
    fieldOffset CntBase.fields 8 = 0xfd0 ∧
    fieldOffset CntEl0Base.fields 0 = 0x000 ∧
    fieldOffset CntEl0Base.fields 1 = 0x008 ∧
    fieldOffset CntEl0Base.fields 2 = 0x010 ∧
    fieldOffset CntEl0Base.fields 4 = 0x020 ∧
    fieldOffset CntEl0Base.fields 5 = 0x030 ∧
    fieldOffset CntEl0Base.fields 7 = 0xfd0 := by
  decide

/-- C7: `scaling_implemented()` is true iff the low 4 bits of the raw
`CntId` register equal `0b0001`, and false for every other residue. -/
theorem C7_scaling_implemented (v : Nat) :
    CntId.scaling_implemented v = true ↔ v % 16 = 1 := by
  have h : v &&& 15 = v % 16 := by
    have h15 : (15 : Nat) = 2 ^ 4 - 1 := rfl
    rw [h15, Nat.and_pow_two_sub_one_eq_mod]
  simp [CntId.scaling_implemented, CntId.CNTSC_MASK, CntId.CNTSC_IMPLEMENTED, h]

/-- C2 (amended): `cancel_interrupt()` writes the control register to exactly
`IMASK`: the interrupt is masked (bit 1 set) and the `ENABLE` bit (bit 0) is
cleared, regardless of its previous value. -/
theorem C2_cancel_interrupt_ctl (s : TimerRegsState) :
    (Timer.cancel_interrupt s).ctl = TimerControl.IMASK ∧
    Nat.testBit (Timer.cancel_interrupt s).ctl 1 = true ∧
    Nat.testBit (Timer.cancel_interrupt s).ctl 0 = false := by
  refine ⟨rfl, ?_, ?_⟩ <;>
    · show Nat.testBit TimerControl.IMASK _ = _
      decide

/-- C2 counterexample: starting from a control register with `ENABLE` set,
`cancel_interrupt()` clears the `ENABLE` bit, so the bit does not remain
set. -/
theorem C2_counterexample :
    Nat.testBit (TimerRegsState.mk 0 0 1).ctl 0 = true ∧
    Nat.testBit (Timer.cancel_interrupt (TimerRegsState.mk 0 0 1)).ctl 0 = false := by
  decide

/-- C8: for every in-range index, `frequency_mode` returns `None` iff the
stored frequency-table slot is exactly 0, and `Some v` for every nonzero
stored value `v`. -/
theorem C8_frequency_mode_absent (s : CntControlBaseState) (i : Fin 40) :
    GenericTimerControl.frequency_mode s i.val =
      some (if s.cntfid i ≠ 0 then some (s.cntfid i) else none) ∧
    (GenericTimerControl.frequency_mode s i.val = some none ↔ s.cntfid i = 0) := by
  unfold GenericTimerControl.frequency_mode
  rw [dif_pos i.isLt]
  simp only [Fin.eta]
  by_cases h0 : s.cntfid i = 0 <;> simp [h0]

/-- C10: no `Timer` operation reads or writes the `tval` register: every
operation leaves `tval` unchanged, and the result of every operation is
independent of `tval`. -/
theorem C10_timer_tval_frame (frequency c t : Nat) (d : Duration)
    (s : TimerRegsState) (reads : Nat → Nat) (fuel : Nat) :
    (Timer.set_deadline frequency d s).tval = s.tval ∧
    (Timer.set_control s c).tval = s.tval ∧
    (Timer.cancel_interrupt s).tval = s.tval ∧
    (Timer.generate_interrupt_after frequency d s).tval = s.tval ∧
    Timer.control { s with tval := t } = Timer.control s ∧
    Timer.set_deadline frequency d { s with tval := t } =
      { Timer.set_deadline frequency d s with tval := t } ∧
    Timer.set_control { s with tval := t } c =
      { Timer.set_control s c with tval := t } ∧
    Timer.cancel_interrupt { s with tval := t } =
      { Timer.cancel_interrupt s with tval := t } ∧
    Timer.generate_interrupt_after frequency d { s with tval := t } =
      { Timer.generate_interrupt_after frequency d s with tval := t } ∧
    (Timer.wait frequency d s reads fuel).map (fun p => p.1.tval) =
      (Timer.wait frequency d s reads fuel).map (fun _ => s.tval) ∧
    Timer.wait frequency d { s with tval := t } reads fuel =
      (Timer.wait frequency d s reads fuel).map
        (fun p => ({ p.1 with tval := t }, p.2)) := by
  refine ⟨rfl, rfl, rfl, rfl, rfl, rfl, rfl, rfl, rfl, ?_, ?_⟩ <;>
    cases h : Timer.spinUntilIstatus reads fuel 0 <;>
      simp [Timer.wait, Timer.set_control, Timer.set_deadline, h]

/-- C5: every indexed table operation panics (returns `none`) exactly when its
index is out of the architectural range: `index < 8` for the `CntCtlBase`
tables and `index < 40` for the frequency table; in-range indices always
complete. -/
theorem C5_index_bounds (sc : CntControlBaseState) (st : CntCtlBaseState)
    (i : Nat) (b : Bool) (acr off freq : Nat) :
    ((GenericTimerCtl.non_secure_access st i).isSome ↔ i < 8) ∧
    ((GenericTimerCtl.set_non_secure_access st i b).isSome ↔ i < 8) ∧
    ((GenericTimerCtl.features st i).isSome ↔ i < 8) ∧
    ((GenericTimerCtl.access_control st i).isSome ↔ i < 8) ∧
    ((GenericTimerCtl.set_access_control st i acr).isSome ↔ i < 8) ∧
    ((GenericTimerCtl.virtual_offset st i).isSome ↔ i < 8) ∧
    ((GenericTimerCtl.set_virtual_offset st i off).isSome ↔ i < 8) ∧
    ((GenericTimerControl.frequency_mode sc i).isSome ↔ i < 40) ∧
    ((GenericTimerControl.set_frequency_mode sc i freq).isSome ↔ i < 40) := by
  unfold GenericTimerCtl.non_secure_access GenericTimerCtl.set_non_secure_access
    GenericTimerCtl.features GenericTimerCtl.access_control
    GenericTimerCtl.set_access_control GenericTimerCtl.virtual_offset
    GenericTimerCtl.set_virtual_offset GenericTimerControl.frequency_mode
    GenericTimerControl.set_frequency_mode
  refine ⟨?_, ?_, ?_, ?_, ?_, ?_, ?_, ?_, ?_⟩ <;> (split <;> simp_all)

/-- C9: `enable_scaling(s)` makes a following `scale()` read `s` and sets the
`SCEN` bit; `disable_scaling()` makes a following `scale()` read 0 and clears
the `SCEN` bit; in both sequences every control-register bit other than
`SCEN` (bit 2) is preserved. -/
theorem C9_scaling_sequences (s : CntControlBaseState) (v : Nat)
    (hc : s.cntcr < 2 ^ 32) :
    GenericTimerControl.scale (GenericTimerControl.enable_scaling s v) = v ∧
    GenericTimerControl.scale (GenericTimerControl.disable_scaling s) = 0 ∧
    Nat.testBit (GenericTimerControl.enable_scaling s v).cntcr 2 = true ∧
    Nat.testBit (GenericTimerControl.disable_scaling s).cntcr 2 = false ∧
    (∀ k, k ≠ 2 →
      Nat.testBit (GenericTimerControl.enable_scaling s v).cntcr k =
        Nat.testBit s.cntcr k) ∧
    (∀ k, k ≠ 2 →
      Nat.testBit (GenericTimerControl.disable_scaling s).cntcr k =
        Nat.testBit s.cntcr k) := by
  refine ⟨rfl, rfl, ?_, ?_, ?_, ?_⟩
  · show Nat.testBit (s.cntcr ||| CntCr.SCEN) 2 = true
    rw [Nat.testBit_lor, testBit_scen]
    simp
  · show Nat.testBit (s.cntcr &&& (0xffffffff ^^^ CntCr.SCEN)) 2 = false
    rw [Nat.testBit_land, testBit_u32_not, testBit_scen]
    simp
  · intro k hk
    show Nat.testBit (s.cntcr ||| CntCr.SCEN) k = Nat.testBit s.cntcr k
    rw [Nat.testBit_lor, testBit_scen]
    simp [hk]
  · intro k hk
    show Nat.testBit (s.cntcr &&& (0xffffffff ^^^ CntCr.SCEN)) k =
      Nat.testBit s.cntcr k
    rw [Nat.testBit_land, testBit_u32_not, testBit_scen]
    rcases Nat.lt_or_ge k 32 with hk32 | hk32
    · simp [hk32, hk]
    · rw [testBit_high hc hk32]
      simp

/-- C9 witness: a concrete run of both scaling sequences. -/
theorem C9_scaling_sequences_witness :
    GenericTimerControl.scale
        (GenericTimerControl.enable_scaling
          (CntControlBaseState.mk 3 0 0 7 0 (fun _ => 0)) 5) = 5 ∧
    Nat.testBit
        (GenericTimerControl.disable_scaling
          (CntControlBaseState.mk 3 0 0 7 0 (fun _ => 0))).cntcr 2 = false ∧
    Nat.testBit
        (GenericTimerControl.enable_scaling
          (CntControlBaseState.mk 3 0 0 7 0 (fun _ => 0)) 5).cntcr 0 =
      Nat.testBit 3 0 :=
  ⟨(C9_scaling_sequences (CntControlBaseState.mk 3 0 0 7 0 (fun _ => 0)) 5
      (by norm_num)).1,
   (C9_scaling_sequences (CntControlBaseState.mk 3 0 0 7 0 (fun _ => 0)) 5
      (by norm_num)).2.2.2.1,
   (C9_scaling_sequences (CntControlBaseState.mk 3 0 0 7 0 (fun _ => 0)) 5
      (by norm_num)).2.2.2.2.1 0 (by norm_num)⟩

/-- C6: `set_fcreq(i)` makes the 10-bit `FCREQ` field at bit offset 8 read
back as `i % 1024` (exactly `i` for `i ≤ 1023`, silently truncated for larger
indices), while every bit outside bits 8..17 is unchanged. -/
theorem C6_set_fcreq_field (v i : Nat) (hv : v < 2 ^ 32) :
    CntSr.fcack (CntCr.set_fcreq v i) = i % 1024 ∧
    (i < 1024 → CntSr.fcack (CntCr.set_fcreq v i) = i) ∧
    (∀ k, k < 8 ∨ 18 ≤ k →
      Nat.testBit (CntCr.set_fcreq v i) k = Nat.testBit v k) := by
  have hfc : CntSr.fcack (CntCr.set_fcreq v i) = i % 1024 := by
    apply Nat.eq_of_testBit_eq
    intro k
    unfold CntSr.fcack CntSr.FCACK_MASK CntSr.FCACK_SHIFT
    rw [Nat.testBit_land, Nat.testBit_shiftRight,
      show (0x3ff : Nat) = 2 ^ 10 - 1 from rfl, Nat.testBit_two_pow_sub_one,
      show (1024 : Nat) = 2 ^ 10 from rfl, Nat.testBit_mod_two_pow,
      testBit_set_fcreq v i (8 + k) hv]
    by_cases hk : k < 10
    · rw [if_pos (by omega)]
      simp [hk, Nat.add_sub_cancel_left]
    · rw [if_neg (by omega)]
      simp [hk]
  refine ⟨hfc, fun hi => by rw [hfc, Nat.mod_eq_of_lt hi], fun k hk => ?_⟩
  rw [testBit_set_fcreq v i k hv, if_neg (by omega)]

/-- C6 witness: a concrete register value and index. -/
theorem C6_set_fcreq_field_witness :
    CntSr.fcack (CntCr.set_fcreq 0x12345678 5) = 5 ∧
    Nat.testBit (CntCr.set_fcreq 0x12345678 5) 0 = Nat.testBit 0x12345678 0 :=
  ⟨(C6_set_fcreq_field 0x12345678 5 (by norm_num)).2.1 (by norm_num),
   (C6_set_fcreq_field 0x12345678 5 (by norm_num)).2.2 0 (Or.inl (by norm_num))⟩

/-- C1 (amended): `set_deadline(d)` leaves `cval` equal to
`previous_cval + frequency * d_in_microseconds / 1_000_000` (truncated toward
zero) whenever the 64-bit intermediate product and the final sum do not
overflow; in particular a zero duration leaves `cval` unchanged.  (When
`frequency * d_in_microseconds ≥ 2^64` the multiplication wraps and the
written value is smaller than the exact one, see the counterexample.) -/
theorem C1_set_deadline_exact (frequency : Nat) (d : Duration)
    (s : TimerRegsState)
    (hmul : frequency * d.as_micros < 2 ^ 64)
    (hsum : s.cval + frequency * d.as_micros / 1000000 < 2 ^ 64) :
    (Timer.set_deadline frequency d s).cval =
      s.cval + frequency * d.as_micros / 1000000 ∧
    (d.as_micros = 0 → (Timer.set_deadline frequency d s).cval = s.cval) := by
  have hmain : (Timer.set_deadline frequency d s).cval =
      s.cval + frequency * d.as_micros / 1000000 := by
    show (s.cval + frequency * (d.as_micros % 2 ^ 64) % 2 ^ 64 / 1000000) %
        2 ^ 64 = s.cval + frequency * d.as_micros / 1000000
    rcases Nat.eq_zero_or_pos frequency with h0 | hpos
    · subst h0
      simp only [Nat.zero_mul, Nat.zero_mod, Nat.zero_div, Nat.add_zero]
      exact Nat.mod_eq_of_lt (by simpa using hsum)
    · have hmic : d.as_micros % 2 ^ 64 = d.as_micros :=
        Nat.mod_eq_of_lt (lt_of_le_of_lt (Nat.le_mul_of_pos_left _ hpos) hmul)
      rw [hmic, Nat.mod_eq_of_lt hmul, Nat.mod_eq_of_lt hsum]
  exact ⟨hmain, fun h0 => by rw [hmain, h0]; simp⟩

/-- C1 witness: frequency 1 MHz, duration 0.5 s, previous `cval` 100. -/
theorem C1_set_deadline_exact_witness :
    (Timer.set_deadline 1000000 (Duration.mk 0 500000000)
        (TimerRegsState.mk 100 0 0)).cval =
      (TimerRegsState.mk 100 0 0).cval +
        1000000 * (Duration.mk 0 500000000).as_micros / 1000000 :=
  (C1_set_deadline_exact 1000000 (Duration.mk 0 500000000)
    (TimerRegsState.mk 100 0 0) (by decide) (by decide)).1

/-- C1 counterexample: with frequency 2 and a duration of 2^63 microseconds
(well below 64-bit overflow of the exact result), the 64-bit product wraps to
0 and `set_deadline` writes increment 0 instead of the exact
`2 * 2^63 / 10^6 = 18446744073709`. -/
theorem C1_counterexample :
    (Timer.set_deadline 2 (Duration.mk 9223372036854 775808000)
        (TimerRegsState.mk 0 0 0)).cval = 0 ∧
    (TimerRegsState.mk 0 0 0).cval +
        2 * (Duration.mk 9223372036854 775808000).as_micros / 1000000 =
      18446744073709 ∧
    (0 : Nat) ≠ 18446744073709 := by
  refine ⟨rfl, rfl, by norm_num⟩

/-- Everything `spinUntilIstatus` returns is sound: the returned read index
is past the start, its read observes `ISTATUS`, and no earlier observed read
has `ISTATUS`. -/
theorem spinUntilIstatus_spec (reads : Nat → Nat) :
    ∀ fuel start n, Timer.spinUntilIstatus reads fuel start = some n →
      start ≤ n ∧ TimerControl.containsIstatus (reads n) = true ∧
      ∀ m, start ≤ m → m < n → TimerControl.containsIstatus (reads m) = false := by
  intro fuel
  induction fuel with
  | zero =>
    intro start n h
    simp [Timer.spinUntilIstatus] at h
  | succ fuel ih =>
    intro start n h
    unfold Timer.spinUntilIstatus at h
    by_cases hb : TimerControl.containsIstatus (reads start) = true
    · rw [if_pos hb] at h
      obtain rfl : start = n := Option.some.inj h
      exact ⟨Nat.le_refl _, hb, fun m hm1 hm2 => absurd hm2 (by omega)⟩
    · rw [if_neg hb] at h
      obtain ⟨h1, h2, h3⟩ := ih (start + 1) n h
      refine ⟨by omega, h2, fun m hm1 hm2 => ?_⟩
      rcases Nat.eq_or_lt_of_le hm1 with hm | hm
      · rw [← hm]
        exact Bool.eq_false_iff.mpr hb
      · exact h3 m (by omega) hm2

/-- If some read at or after `start` observes `ISTATUS`, enough fuel makes
`spinUntilIstatus` return. -/
theorem spinUntilIstatus_terminates (reads : Nat → Nat) :
    ∀ k start, TimerControl.containsIstatus (reads (start + k)) = true →
      ∃ n, Timer.spinUntilIstatus reads (k + 1) start = some n := by
  intro k
  induction k with
  | zero =>
    intro start h
    rw [Nat.add_zero] at h
    exact ⟨start, by simp [Timer.spinUntilIstatus, h]⟩
  | succ k ih =>
    intro start h
    by_cases hb : TimerControl.containsIstatus (reads start) = true
    · exact ⟨start, by simp [Timer.spinUntilIstatus, hb]⟩
    · obtain ⟨n, hn⟩ := ih (start + 1)
        (by rw [show start + 1 + k = start + (k + 1) by omega]; exact h)
      refine ⟨n, ?_⟩
      generalize k + 1 = j at hn ⊢
      unfold Timer.spinUntilIstatus
      rw [if_neg hb]
      exact hn

/-- If no read ever observes `ISTATUS`, `spinUntilIstatus` never returns. -/
theorem spinUntilIstatus_no_istatus (reads : Nat → Nat)
    (h : ∀ m, TimerControl.containsIstatus (reads m) = false) :
    ∀ fuel start, Timer.spinUntilIstatus reads fuel start = none := by
  intro fuel
  induction fuel with
  | zero => intro start; rfl
  | succ fuel ih => intro start; simp [Timer.spinUntilIstatus, h start, ih]

/-- C4: `wait` first sets the deadline, then writes `ENABLE | IMASK` to the
control register, and spins on reads of `ctl`: whenever it returns, the
returned state is the deadline state with control `ENABLE | IMASK`, the last
read observed `ISTATUS` and no earlier read did; it never returns while all
observed reads lack `ISTATUS`; and if some read observes `ISTATUS`, it
terminates. -/
theorem C4_wait_polls_istatus (frequency : Nat) (d : Duration)
    (s : TimerRegsState) (reads : Nat → Nat) :
    (∀ fuel s2 n, Timer.wait frequency d s reads fuel = some (s2, n) →
      s2.cval = (Timer.set_deadline frequency d s).cval ∧
      s2.tval = s.tval ∧
      s2.ctl = (TimerControl.ENABLE ||| TimerControl.IMASK) ∧
      TimerControl.containsIstatus (reads n) = true ∧
      ∀ m, m < n → TimerControl.containsIstatus (reads m) = false) ∧
    ((∀ m, TimerControl.containsIstatus (reads m) = false) →
      ∀ fuel, Timer.wait frequency d s reads fuel = none) ∧
    ((∃ k, TimerControl.containsIstatus (reads k) = true) →
      ∃ fuel s2 n, Timer.wait frequency d s reads fuel = some (s2, n)) := by
  refine ⟨?_, ?_, ?_⟩
  · intro fuel s2 n h
    unfold Timer.wait at h
    cases hsp : Timer.spinUntilIstatus reads fuel 0 with
    | none => rw [hsp] at h; cases h
    | some n' =>
      rw [hsp] at h
      obtain ⟨hs2, hn⟩ := Prod.mk.injEq .. ▸ Option.some.inj h
      obtain ⟨-, h2, h3⟩ := spinUntilIstatus_spec reads fuel 0 n' hsp
      subst hn
      exact ⟨by rw [← hs2]; rfl, by rw [← hs2]; rfl, by rw [← hs2]; rfl,
        h2, fun m hm => h3 m (Nat.zero_le m) hm⟩
  · intro hnone fuel
    unfold Timer.wait
    rw [spinUntilIstatus_no_istatus reads hnone fuel 0]
  · rintro ⟨k, hk⟩
    obtain ⟨n, hn⟩ :=
      spinUntilIstatus_terminates reads k 0 (by rw [Nat.zero_add]; exact hk)
    exact ⟨k + 1, _, n, by unfold Timer.wait; rw [hn]⟩

/-- A concrete poll trace: the first two reads of `ctl` see `ENABLE | IMASK`,
the third sees `ISTATUS` latched as well. -/
def pollTrace : Nat → Nat := fun n => if n < 2 then 3 else 7

/-- C4 witness: on the concrete trace, `wait` returns at read 2, which is the
first read with `ISTATUS`. -/
theorem C4_wait_polls_istatus_witness :
    TimerControl.containsIstatus (pollTrace 2) = true ∧
    TimerControl.containsIstatus (pollTrace 0) = false :=
  have h := (C4_wait_polls_istatus 1000000 (Duration.mk 0 500000000)
      (TimerRegsState.mk 100 0 0) pollTrace).1 5
      (TimerRegsState.mk 500100 0 3) 2 rfl
  ⟨h.2.2.2.1, h.2.2.2.2 0 (by norm_num)⟩

end ArmGenericTimer
